import Mathlib

/-!
# Shallow embedding of `src/scripts/calculator.js`

The JavaScript calculator is a pure pipeline
string → validate → tokenize → normalize (implicit `*`, negative folding)
→ shunting-yard postfix conversion → stack evaluation → rounding.

Modelling conventions:
* JavaScript IEEE-754 doubles are modelled exactly as rationals, extended with
  `NaN` and signed infinities (`JSNum`).  Floating-point rounding error and the
  exponential formatting of extreme literals are outside the model; every value
  the program's claims exercise is an exact finite decimal.  Negative zero is
  collapsed to `0`; the only observable uses of a zero value in the program
  (the `x === 0` strict-equality test and `0/0`) do not distinguish `-0` from `0`.
* JavaScript values flowing through the evaluation stack are either string
  tokens, numbers, or `undefined` (the result of popping an empty JS array);
  these are the three constructors of `Value`.
* The source's `while`/`for` loops that mutate the token array while shifting
  indices (`fixParenthesesMultiplication`, `fixNegativeNumbers`) are modelled
  as step functions over `(array, index)` driven by a fuel counter.  The fuel
  is chosen far larger than the number of iterations the JS loop can perform,
  so it is never exhausted; running out of fuel returns the array unchanged.
* Both error throws of the source (`"Invalid Input"`, `"Can not divide by
  zero."`) are the two constructors of `CalcError`, named after the spec's
  taxonomy (`InvalidExpression`, `DivisionByZero`).
-/

namespace Calculator

/-- The two error kinds of the spec's taxonomy: `Error("Invalid Input")` and
`Error("Can not divide by zero.")` in the source. -/
inductive CalcError
  | invalidExpression
  | divisionByZero
deriving DecidableEq, Repr

/-- An exact rational in canonical form (positive denominator, reduced),
used to model finite JavaScript numbers.  A separate executable type is used
(rather than Mathlib's `ℚ`) so that every pipeline run can be evaluated by
the kernel: all operations normalize through a structurally recursive
Euclidean gcd. -/
structure Q where
  num : Int
  den : Nat
deriving DecidableEq, Repr

/-- Euclid's algorithm, structurally recursive on a fuel that bounds the
first argument; `gcdAux (x+1) x y` computes `gcd x y` (each step strictly
decreases the first argument, so the fuel is never exhausted). -/
def gcdAux : Nat → Nat → Nat → Nat
  | 0, _, y => y
  | _ + 1, 0, y => y
  | fuel + 1, x, y => gcdAux fuel (y % x) x

/-- Greatest common divisor (kernel-computable). -/
def qGcd (x y : Nat) : Nat := gcdAux (x + 1) x y

/-- The canonical rational `n / d` (`d ≠ 0` for every call in this file). -/
def Q.norm (n d : Int) : Q :=
  if d = 0 then ⟨0, 0⟩
  else
    let n1 := if d < 0 then -n else n
    let d1 := (if d < 0 then -d else d).toNat
    let g := qGcd n1.natAbs d1
    ⟨n1 / g, d1 / g⟩

def Q.ofInt (n : Int) : Q := ⟨n, 1⟩

instance (n : Nat) : OfNat Q n := ⟨Q.ofInt n⟩

def Q.add (a b : Q) : Q := Q.norm (a.num * b.den + b.num * a.den) (a.den * b.den)

def Q.sub (a b : Q) : Q := Q.norm (a.num * b.den - b.num * a.den) (a.den * b.den)

def Q.mul (a b : Q) : Q := Q.norm (a.num * b.num) (a.den * b.den)

/-- `a / b` for `b ≠ 0` (guarded at every call site). -/
def Q.div (a b : Q) : Q := Q.norm (a.num * b.den) (a.den * b.num)

def Q.neg (a : Q) : Q := ⟨-a.num, a.den⟩

instance : Add Q := ⟨Q.add⟩
instance : Sub Q := ⟨Q.sub⟩
instance : Mul Q := ⟨Q.mul⟩
instance : Div Q := ⟨Q.div⟩
instance : Neg Q := ⟨Q.neg⟩

/-- `a = 0` (canonical form makes this a numerator test). -/
def Q.isZero (a : Q) : Bool := a.num = 0

/-- `a < 0` (canonical form makes this a numerator test). -/
def Q.isNeg (a : Q) : Bool := a.num < 0

/-- `⌊a⌋`: floor division of numerator by denominator. -/
def Q.floor (a : Q) : Int := a.num.fdiv a.den

/-- A JavaScript number: NaN, a signed infinity, or a finite value
(modelled as an exact rational). -/
inductive JSNum
  | nan
  | inf (neg : Bool)
  | fin (q : Q)
deriving DecidableEq, Repr

/-- A JavaScript value on the evaluation stack: a string token, a number, or
`undefined` (what `Array.prototype.pop` returns on an empty array). -/
inductive Value
  | str (s : String)
  | num (n : JSNum)
  | undef
deriving DecidableEq, Repr

instance {ε α : Type} [DecidableEq ε] [DecidableEq α] : DecidableEq (Except ε α) := fun a b =>
  match a, b with
  | .ok x, .ok y =>
    if h : x = y then .isTrue (by rw [h]) else .isFalse (by simp [h])
  | .error x, .error y =>
    if h : x = y then .isTrue (by rw [h]) else .isFalse (by simp [h])
  | .ok _, .error _ => .isFalse (by simp)
  | .error _, .ok _ => .isFalse (by simp)

/-! ## Character and token classification (source lines 1-2) -/

/-- Source line 1: `isOperator` asks whether `element` occurs inside the
six-character operator string (star, slash, minus, plus, parens).
`String.prototype.includes` is substring containment. -/
def isOperator (element : String) : Bool :=
  "*/-+()".toList.tails.any (fun t => element.toList.isPrefixOf t)

/-- `isOperator` applied to a single-character string, as the tokenizer and
validator do character by character. -/
def isOperatorChar (c : Char) : Bool :=
  isOperator (String.mk [c])

/-- The character class removed by the source's `replace(/\s+/g, '')` calls:
JavaScript's `\s`. -/
def jsWhitespace (c : Char) : Bool :=
  c ∈ [' ', '\t', '\n', '\r', '\u000b', '\u000c', '\u00a0', '\u1680', '\u2028',
       '\u2029', '\u202f', '\u205f', '\u3000', '\ufeff']
  || ('\u2000' ≤ c && c ≤ '\u200a')

/-- `input.replace(/\s+/g, '')`: deleting every whitespace character. -/
def stripSpaces (l : List Char) : List Char :=
  l.filter (fun c => !jsWhitespace c)

/-! ## String-to-number coercion (JavaScript `Number(string)`)

Only decimal literals (optional sign, digits, at most one dot) are modelled;
every token this program coerces has that shape, other strings coerce to NaN
exactly as in JavaScript. -/

/-- Value of a list of decimal digits read left to right. -/
def digitsVal (ds : List Char) : Nat :=
  ds.foldl (fun a c => 10 * a + (c.toNat - 48)) 0

/-- Value of an unsigned decimal literal `digits [. digits]` (at least one
digit overall), `none` when the string is not of that shape. -/
def decimalVal? (l : List Char) : Option Q :=
  let intPart := l.takeWhile Char.isDigit
  let rest := l.dropWhile Char.isDigit
  match rest with
  | [] => if intPart = [] then none else some (Q.ofInt (digitsVal intPart))
  | '.' :: frac =>
    if frac.all Char.isDigit ∧ (intPart ≠ [] ∨ frac ≠ []) then
      some (Q.norm (digitsVal intPart * 10 ^ frac.length + digitsVal frac) (10 ^ frac.length))
    else none
  | _ => none

/-- JavaScript `Number(s)` for a string `s` (empty string is `0`, an optional
leading sign, otherwise NaN unless a decimal literal). -/
def jsStrToNum (s : String) : JSNum :=
  match s.toList with
  | [] => .fin 0
  | '-' :: rest =>
    match decimalVal? rest with
    | some q => .fin (Q.neg q)
    | none => .nan
  | '+' :: rest =>
    match decimalVal? rest with
    | some q => .fin q
    | none => .nan
  | l =>
    match decimalVal? l with
    | some q => .fin q
    | none => .nan

/-- JavaScript `ToNumber` on a stack value: strings coerce via `Number`,
`undefined` coerces to NaN. -/
def toNumber : Value → JSNum
  | .str s => jsStrToNum s
  | .num n => n
  | .undef => .nan

/-- `!isNaN(n)` for a number `n`. -/
def jsIsNumber : JSNum → Bool
  | .nan => false
  | _ => true

/-- Source: `const isNumber = element => !isNaN(element);`, applied to an
array slot that may be out of bounds (`undefined`, which is not a number). -/
def isNumberT : Option String → Bool
  | none => false
  | some s => jsIsNumber (jsStrToNum s)

/-! ## JavaScript arithmetic on `JSNum` -/

def jsAdd : JSNum → JSNum → JSNum
  | .nan, _ => .nan
  | _, .nan => .nan
  | .inf s, .inf t => if s = t then .inf s else .nan
  | .inf s, .fin _ => .inf s
  | .fin _, .inf t => .inf t
  | .fin p, .fin q => .fin (p + q)

def jsSub : JSNum → JSNum → JSNum
  | .nan, _ => .nan
  | _, .nan => .nan
  | .inf s, .inf t => if s = t then .nan else .inf s
  | .inf s, .fin _ => .inf s
  | .fin _, .inf t => .inf !t
  | .fin p, .fin q => .fin (p - q)

def jsMul : JSNum → JSNum → JSNum
  | .nan, _ => .nan
  | _, .nan => .nan
  | .inf s, .inf t => .inf (xor s t)
  | .inf s, .fin q => if q.isZero then .nan else .inf (xor s q.isNeg)
  | .fin q, .inf t => if q.isZero then .nan else .inf (xor t q.isNeg)
  | .fin p, .fin q => .fin (p * q)

def jsDiv : JSNum → JSNum → JSNum
  | .nan, _ => .nan
  | _, .nan => .nan
  | .inf _, .inf _ => .nan
  | .inf s, .fin q => .inf (xor s q.isNeg)
  | .fin _, .inf _ => .fin 0
  | .fin p, .fin q =>
    if q.isZero then (if p.isZero then .nan else .inf p.isNeg)
    else .fin (p / q)

/-- `Math.round`: round half toward positive infinity, i.e. `⌊x + 1/2⌋`. -/
def jsRound : JSNum → JSNum
  | .nan => .nan
  | .inf s => .inf s
  | .fin q => .fin (Q.ofInt (Q.floor (q + Q.norm 1 2)))

/-! ## JavaScript number-to-string conversion (`String(n)`)

Used by `fixNegativeNumbers` on `-1 * Number(token)`; every such value is a
finite decimal, which JavaScript prints exactly (shortest form, no trailing
fractional zeros, `String(-0)` is `"0"`). -/

/-- Largest `k ≤ fuel` with `p^k ∣ n` (for `p ≥ 2`, `n ≥ 1`). -/
def divCount (p : Nat) : Nat → Nat → Nat
  | 0, _ => 0
  | fuel + 1, n => if n % p = 0 ∧ n ≠ 0 ∧ 1 < p then divCount p fuel (n / p) + 1 else 0

/-- Remove trailing decimal zeros: `(fp, k) ↦ (fp / 10^j, k - j)` for the
largest `j ≤ k` with `10^j ∣ fp`. -/
def stripZeros : Nat → Nat → Nat × Nat
  | fp, 0 => (fp, 0)
  | fp, k + 1 => if fp % 10 = 0 then stripZeros (fp / 10) k else (fp, k + 1)

/-- Zero-pad a digit string on the left to width `k`. -/
def padLeft (k : Nat) (s : String) : String :=
  String.mk (List.replicate (k - s.length) '0') ++ s

/-- `String(q)` for a finite JavaScript number `q`: exact decimal notation.
Rationals whose denominator is not of the form `2^a * 5^b` never reach this
function in the program; they fall back to a fraction spelling. -/
def decimalString (q : Q) : String :=
  if q.isZero then "0"
  else
    let sign := if q.isNeg then "-" else ""
    let n := q.num.natAbs
    let d := q.den
    let k := max (divCount 2 d d) (divCount 5 d d)
    if d ∣ 10 ^ k then
      let m := n * (10 ^ k / d)
      let ip := m / 10 ^ k
      let fp := m % 10 ^ k
      let (fp1, k1) := stripZeros fp k
      if k1 = 0 then sign ++ toString ip
      else sign ++ toString ip ++ "." ++ padLeft k1 (toString fp1)
    else sign ++ toString n ++ "/" ++ toString d

/-- `String(n)` for any JavaScript number. -/
def jsNumToString : JSNum → String
  | .nan => "NaN"
  | .inf false => "Infinity"
  | .inf true => "-Infinity"
  | .fin q => decimalString q

/-! ## Validator (source lines 9-34, `validateInput`) -/

/-- The running-parenthesis-counter loop of `validateInput`: `true` exactly
when the counter never goes negative and is zero at the end. -/
def parenScan : List Char → Int → Bool
  | [], k => decide (k = 0)
  | c :: rest, k =>
    if c = '(' then parenScan rest (k + 1)
    else if c = ')' then
      if k - 1 < 0 then false else parenScan rest (k - 1)
    else parenScan rest k

/-- Source line 28: the allowed characters — digits, dot, parens, star,
slash, minus, plus. -/
def allowedElements : String := "1234567890.()*/-+"

/-- `allowedElements.includes(char)` for a single character. -/
def allowedChar (c : Char) : Bool :=
  allowedElements.toList.contains c

/-- Source `validateInput`: parenthesis scan over the raw input, then the
allowed-character scan over the whitespace-stripped input; both failures
throw `Error("Invalid Input")`. -/
def validateInput (input : String) : Except CalcError Unit :=
  if !parenScan input.toList 0 then .error .invalidExpression
  else if !(stripSpaces input.toList).all allowedChar then .error .invalidExpression
  else .ok ()

/-! ## Tokenizer (source lines 42-67, `getArrayOfTokens`) -/

/-- The inner `while` of `getArrayOfTokens` plus the trailing-dot check:
greedily extend the current number token `curr` with following non-operator
characters.  A second `.` while `curr` already contains one, or a token
ending in `.`, throws `Invalid Input`.  Returns the finished token and the
unconsumed remainder. -/
def scanNumber (curr : List Char) : List Char → Except CalcError (List Char × List Char)
  | [] =>
    if curr.getLast? = some '.' then .error .invalidExpression
    else .ok (curr, [])
  | c :: rest =>
    if isOperatorChar c then
      if curr.getLast? = some '.' then .error .invalidExpression
      else .ok (curr, c :: rest)
    else if curr.contains '.' ∧ c = '.' then .error .invalidExpression
    else scanNumber (curr ++ [c]) rest

/-- The outer `for` of `getArrayOfTokens`.  The fuel only bounds the number of
tokens; `length + 1` always suffices since every token consumes at least one
character, so the exhaustion branch is unreachable. -/
def tokensAux : Nat → List Char → Except CalcError (List String)
  | _, [] => .ok []
  | 0, _ :: _ => .error .invalidExpression
  | fuel + 1, c :: rest =>
    if isOperatorChar c then
      match tokensAux fuel rest with
      | .ok ts => .ok (String.mk [c] :: ts)
      | .error e => .error e
    else
      match scanNumber [c] rest with
      | .error e => .error e
      | .ok (tok, rem) =>
        match tokensAux fuel rem with
        | .ok ts => .ok (String.mk tok :: ts)
        | .error e => .error e

/-- Source `getArrayOfTokens`: strip whitespace, then split into operator and
number tokens. -/
def getArrayOfTokens (input : String) : Except CalcError (List String) :=
  tokensAux ((stripSpaces input.toList).length + 1) (stripSpaces input.toList)

/-! ## Normalizer (source lines 74-121)

Both normalizer passes are JavaScript `for` loops that splice into the array
they are iterating over; they are modelled as step functions on
`(array, index)`.  The fuel argument only bounds the iteration count and is
chosen in the wrappers so that it is never exhausted (each iteration either
consumes a trigger token or advances past one position, see the loop bodies). -/

/-- `arr.splice(i, 0, x)`: insert `x` at index `i` (appends when `i` is past
the end, exactly like `splice`). -/
def insertAt (arr : List String) (i : Nat) (x : String) : List String :=
  arr.take i ++ x :: arr.drop i

/-- `tokenArray[i-1]`: JavaScript yields `undefined` at index `-1`. -/
def prevTok (arr : List String) (i : Nat) : Option String :=
  if i = 0 then none else arr[i - 1]?

/-- The `for` loop of `fixParenthesesMultiplication` (source lines 75-89):
three splice cases for `)(`, number-`(` and `)`-number, with the loop bound
`i < tokenArray.length - 1` re-read from the mutated array each iteration. -/
def fixParensLoop : Nat → List String → Nat → List String
  | 0, arr, _ => arr
  | fuel + 1, arr, i =>
    if i + 1 < arr.length then
      if arr[i]? = some ")" ∧ arr[i + 1]? = some "(" then
        fixParensLoop fuel (insertAt arr (i + 1) "*") (i + 1)
      else if arr[i]? = some "(" ∧ isNumberT (prevTok arr i) then
        fixParensLoop fuel (insertAt arr i "*") (i + 2)
      else if arr[i]? = some ")" ∧ isNumberT arr[i + 1]? then
        fixParensLoop fuel (insertAt arr (i + 1) "*") (i + 1)
      else
        fixParensLoop fuel arr (i + 1)
    else arr

/-- Source `fixParenthesesMultiplication`: the loop starts at index 1. -/
def fixParenthesesMultiplication (tokenArray : List String) : List String :=
  fixParensLoop (2 * (tokenArray.length + 2) * (tokenArray.length + 2)) tokenArray 1

/-- `String(-1 * Number(token))` (source line 112). -/
def negateToken (s : String) : String :=
  jsNumToString (jsMul (.fin (Q.neg 1)) (jsStrToNum s))

/-- The `for` loop of `fixNegativeNumbers` (source lines 99-119):
`-` before `(` is rewritten to `-1 *` (with a `+` inserted first when the
preceding token is a number); `-` before a number is folded into a negative
number token (with a `+` inserted when the preceding token is a number or
`)`).  The preceding-token tests read the already-mutated array, as the
source does. -/
def fixNegLoop : Nat → List String → Nat → List String
  | 0, arr, _ => arr
  | fuel + 1, arr, i =>
    if i < arr.length then
      if arr[i]? = some "-" ∧ arr[i + 1]? = some "(" then
        let arr1 := insertAt (arr.set i "-1") (i + 1) "*"
        if isNumberT (prevTok arr1 i) then
          fixNegLoop fuel (insertAt arr1 i "+") (i + 2)
        else
          fixNegLoop fuel arr1 (i + 1)
      else if arr[i]? = some "-" ∧ isNumberT arr[i + 1]? then
        let arr1 := (arr.set (i + 1) (negateToken (arr.getD (i + 1) ""))).eraseIdx i
        if isNumberT (prevTok arr1 i) ∨ prevTok arr1 i = some ")" then
          fixNegLoop fuel (insertAt arr1 i "+") (i + 1)
        else
          fixNegLoop fuel arr1 (i + 1)
      else
        fixNegLoop fuel arr (i + 1)
    else arr

/-- Source `fixNegativeNumbers`: the loop starts at index 0. -/
def fixNegativeNumbers (tokenArray : List String) : List String :=
  fixNegLoop (2 * (tokenArray.length + 2) * (tokenArray.length + 2)) tokenArray 0

/-- The full normalization stage as `convertToPostfix` performs it
(source line 139). -/
def normalizedTokens (input : String) : Except CalcError (List String) :=
  match getArrayOfTokens input with
  | .error e => .error e
  | .ok ts => .ok (fixNegativeNumbers (fixParenthesesMultiplication ts))

/-! ## Postfix converter (source lines 129-170, `convertToPostfix`)

The operator stack is a list with its head as the stack top. -/

/-- Source lines 130-136: the precedence table.  A lookup of any other key
yields `undefined` in JavaScript, making every `>=` comparison false; no
other key is ever looked up, and the default `0` has the same effect since
all table entries are positive. -/
def precedence : String → Nat
  | "(" => 1
  | "+" => 2
  | "-" => 2
  | "*" => 3
  | "/" => 3
  | _ => 0

/-- The `while` loop of the `)` case (source lines 151-156): pop and append
until a `(` is popped (and discarded).  When no `(` is present the JS
`while` never terminates (popping an empty array yields `undefined`
forever); that state is unreachable after validation and is modelled as an
`InvalidExpression` error. -/
def drainToParen (out : List String) : List String → Except CalcError (List String × List String)
  | [] => .error .invalidExpression
  | top :: rest =>
    if top = "(" then .ok (out, rest)
    else drainToParen (out ++ [top]) rest

/-- The `while` loop of the general-operator case (source lines 160-162):
pop to the output while the stack top's precedence is ≥ the current
token's. -/
def popGE (token : String) (out : List String) : List String → List String × List String
  | [] => (out, [])
  | top :: rest =>
    if precedence top ≥ precedence token then popGE token (out ++ [top]) rest
    else (out, top :: rest)

/-- The token loop of `convertToPostfix` (source lines 143-168), including
the final drain of the operator stack. -/
def convLoop : List String → List String → List String → Except CalcError (List String)
  | [], out, stack => .ok (out ++ stack)
  | token :: rest, out, stack =>
    if !isOperator token then convLoop rest (out ++ [token]) stack
    else if token = "(" then convLoop rest out (token :: stack)
    else if token = ")" then
      match drainToParen out stack with
      | .ok (out1, stack1) => convLoop rest out1 stack1
      | .error e => .error e
    else
      let (out1, stack1) := popGE token out stack
      convLoop rest out1 (token :: stack1)

/-- Source `convertToPostfix`: tokenize, normalize, then shunting-yard. -/
def convertToPostfix (input : String) : Except CalcError (List String) :=
  match normalizedTokens input with
  | .error e => .error e
  | .ok tokenArray => convLoop tokenArray [] []

/-! ## Evaluator (source lines 177-212, `evaluateExpression`) -/

/-- `x === 0` (source line 184): strict equality is only true for a number
value equal to zero — never for a string token or `undefined`. -/
def strictEqZero : Value → Bool
  | .num (.fin q) => q.isZero
  | _ => false

/-- The `operate` table (source lines 179-189) applied to the two popped
stack values (`x` first-popped, `y` second-popped).  `(` and `)` are not
keys of the table: applying `undefined` is a JavaScript crash, unreachable
after validation, modelled as `InvalidExpression`. -/
def applyOp (token : String) (x y : Value) : Except CalcError JSNum :=
  if token = "+" then .ok (jsAdd (toNumber x) (toNumber y))
  else if token = "-" then .ok (jsSub (toNumber y) (toNumber x))
  else if token = "*" then .ok (jsMul (toNumber x) (toNumber y))
  else if token = "/" then
    if strictEqZero x then .error .divisionByZero
    else .ok (jsDiv (toNumber y) (toNumber x))
  else .error .invalidExpression

/-- The postfix evaluation loop (source lines 192-202): numbers (in fact all
non-operator tokens) push as strings, operators pop two values and push a
number. -/
def evalLoop : List String → List Value → Except CalcError (List Value)
  | [], stack => .ok stack
  | token :: rest, stack =>
    if isOperator token then
      let elementOne := stack.headD .undef
      let stack1 := stack.tail
      let elementTwo := stack1.headD .undef
      let stack2 := stack1.tail
      match applyOp token elementOne elementTwo with
      | .ok r => evalLoop rest (.num r :: stack2)
      | .error e => .error e
    else evalLoop rest (.str token :: stack)

/-- Source lines 204-205: `Number(Math.round(solution * 10000) / 10000)`
applied to `postfixStack[0]` (string tokens coerce through `ToNumber`). -/
def roundedSolution (v : Value) : JSNum :=
  jsDiv (jsRound (jsMul (toNumber v) (.fin 10000))) (.fin 10000)

/-- The pipeline up to the final evaluation stack: validate, convert to
postfix (which re-tokenizes and normalizes), then run the postfix loop. -/
def rawStack (input : String) : Except CalcError (List Value) :=
  match validateInput input with
  | .error e => .error e
  | .ok _ =>
    match convertToPostfix input with
    | .error e => .error e
    | .ok postfixArray => evalLoop postfixArray []

/-- Source `evaluateExpression`: the rounded bottom-of-stack value, with the
final `postfixStack.length !== 1 || !isNumber(solution)` check (source
lines 207-209).  `postfixStack[0]` is the bottom of the JS array, i.e. the
last element of the head-is-top list. -/
def evaluateExpression (input : String) : Except CalcError JSNum :=
  match rawStack input with
  | .error e => .error e
  | .ok postfixStack =>
    if postfixStack.length != 1 ||
        !jsIsNumber (roundedSolution (postfixStack.getLastD .undef)) then
      .error .invalidExpression
    else .ok (roundedSolution (postfixStack.getLastD .undef))

/-! ## Spec-side validator contract (spec §4.1)

A second definition, written from the spec's words rather than the source,
for the refinement claim C7: the validator fails exactly when parenthesis
nesting ever goes negative, or is nonzero at the end, or a
non-whitespace-stripped character is outside the allowed set. -/

/-- Contribution of one character to the running parenthesis counter. -/
def parenStep (c : Char) : Int :=
  if c = '(' then 1 else if c = ')' then -1 else 0

/-- The parenthesis nesting count of a character sequence. -/
def parenTally (l : List Char) : Int :=
  (l.map parenStep).sum

/-- Spec §4.1, verbatim contract: the input is rejected iff nesting goes
negative on some prefix, or the final count is nonzero, or some character of
the whitespace-stripped input is not allowed. -/
def specRejects (input : String) : Prop :=
  (∃ p ∈ input.toList.inits, parenTally p < 0) ∨
  parenTally input.toList ≠ 0 ∨
  (∃ c ∈ stripSpaces input.toList, allowedChar c = false)

instance (input : String) : Decidable (specRejects input) := by
  unfold specRejects; infer_instance

/-! ## Supporting lemmas -/

/-- The number scan accumulates exactly the characters it consumes: token
plus remainder spell the accumulator plus the input. -/
theorem scanNumber_append : ∀ (l curr tok rem : List Char),
    scanNumber curr l = .ok (tok, rem) → tok ++ rem = curr ++ l := by
  intro l
  induction l with
  | nil =>
    intro curr tok rem h
    simp only [scanNumber] at h
    split at h
    · exact absurd h (by simp)
    · simp_all
  | cons c rest ih =>
    intro curr tok rem h
    simp only [scanNumber] at h
    split at h
    · split at h
      · exact absurd h (by simp)
      · simp_all
    · split at h
      · exact absurd h (by simp)
      · simpa using ih (curr ++ [c]) tok rem h

/-- The token loop partitions its input: the concatenation of the tokens it
returns is exactly the character list it was given. -/
theorem tokensAux_concat : ∀ (fuel : Nat) (l : List Char) (ts : List String),
    tokensAux fuel l = .ok ts → (ts.map String.toList).flatten = l := by
  intro fuel
  induction fuel with
  | zero =>
    intro l ts h
    cases l with
    | nil => simp only [tokensAux] at h; simp_all
    | cons c rest => exact absurd h (by simp [tokensAux])
  | succ fuel ih =>
    intro l ts h
    cases l with
    | nil => simp only [tokensAux] at h; simp_all
    | cons c rest =>
      simp only [tokensAux] at h
      split at h
      · split at h
        next ts1 hrec =>
          cases h
          simpa using ih rest ts1 hrec
        next e hrec => exact absurd h (by simp)
      · split at h
        next e hscan => exact absurd h (by simp)
        next tok rem hscan =>
          split at h
          next ts1 hrec =>
            cases h
            have h1 := scanNumber_append rest [c] tok rem hscan
            have h2 := ih rem ts1 hrec
            simp only [List.map_cons, List.flatten_cons, h2]
            simpa using h1
          next e hrec => exact absurd h (by simp)

/-- `popGE` pops exactly the maximal stack prefix whose precedence is
greater than or equal to the current token's. -/
theorem popGE_spec (token : String) : ∀ (stack out : List String),
    popGE token out stack =
      (out ++ stack.takeWhile (fun t => precedence t ≥ precedence token),
       stack.dropWhile (fun t => precedence t ≥ precedence token)) := by
  intro stack
  induction stack with
  | nil => intro out; simp [popGE]
  | cons top rest ih =>
    intro out
    by_cases h : precedence top ≥ precedence token
    · simp [popGE, List.takeWhile_cons, List.dropWhile_cons, h, ih]
    · simp [popGE, List.takeWhile_cons, List.dropWhile_cons, h]

/-- The empty list is an initial segment of every list. -/
theorem nil_mem_inits : ∀ (l : List Char), [] ∈ l.inits := by
  intro l
  cases l with
  | nil => simp
  | cons c rest => simp [List.inits_cons]

/-- Splitting off the head of the prefix-condition-and-balance invariant. -/
theorem tallyInv_cons (c : Char) (rest : List Char) (k : Int) :
    ((∀ p ∈ (c :: rest).inits, 0 ≤ k + parenTally p) ∧ k + parenTally (c :: rest) = 0) ↔
      (0 ≤ k ∧ ((∀ p ∈ rest.inits, 0 ≤ (k + parenStep c) + parenTally p) ∧
        (k + parenStep c) + parenTally rest = 0)) := by
  simp only [List.inits_cons, List.forall_mem_cons, List.forall_mem_map, parenTally,
    List.map_cons, List.sum_cons, List.map_nil, List.sum_nil]
  constructor
  · rintro ⟨⟨h0, hq⟩, he⟩
    refine ⟨by omega, fun p hp => ?_, by omega⟩
    have := hq p hp
    omega
  · rintro ⟨h0, hq, he⟩
    refine ⟨⟨by omega, fun p hp => ?_⟩, by omega⟩
    have := hq p hp
    omega

/-- The validator's parenthesis loop succeeds from a nonnegative counter `k`
iff the counter stays nonnegative on every prefix and ends at zero. -/
theorem parenScan_iff : ∀ (l : List Char) (k : Int), 0 ≤ k →
    (parenScan l k = true ↔
      ((∀ p ∈ l.inits, 0 ≤ k + parenTally p) ∧ k + parenTally l = 0)) := by
  intro l
  induction l with
  | nil =>
    intro k hk
    rw [show ([] : List Char).inits = [[]] from rfl]
    simp only [parenScan, decide_eq_true_iff, List.mem_singleton,
      forall_eq, parenTally, List.map_nil, List.sum_nil]
    omega
  | cons c rest ih =>
    intro k hk
    rw [tallyInv_cons]
    by_cases hc : c = '('
    · subst hc
      rw [show parenScan ('(' :: rest) k = parenScan rest (k + 1) from by simp [parenScan],
        ih (k + 1) (by omega)]
      simp only [parenStep, if_pos rfl]
      exact (and_iff_right hk).symm
    · by_cases hc2 : c = ')'
      · subst hc2
        have hstep : parenStep ')' = -1 := by simp [parenStep]
        rw [hstep]
        by_cases hneg : k - 1 < 0
        · rw [show parenScan (')' :: rest) k = false from by simp [parenScan, hc, hneg]]
          simp only [Bool.false_eq_true, false_iff]
          rintro ⟨-, hall, -⟩
          have := hall [] (nil_mem_inits rest)
          simp only [parenTally, List.map_nil, List.sum_nil] at this
          omega
        · rw [show parenScan (')' :: rest) k = parenScan rest (k - 1) from by
              simp [parenScan, hc, hneg],
            ih (k - 1) (by omega)]
          constructor
          · intro h; exact ⟨hk, by simpa using h⟩
          · rintro ⟨-, h⟩; simpa using h
      · have hstep : parenStep c = 0 := by simp [parenStep, hc, hc2]
        rw [hstep]
        rw [show parenScan (c :: rest) k = parenScan rest k from by simp [parenScan, hc, hc2],
          ih k hk]
        simp only [add_zero]
        exact (and_iff_right hk).symm

/-- A validator failure propagates unchanged through the whole pipeline. -/
theorem eval_error_of_validate_error (input : String) (e : CalcError)
    (h : validateInput input = .error e) : evaluateExpression input = .error e := by
  unfold evaluateExpression rawStack
  rw [h]

/-! ## Claim theorems -/

/-- C1: the claim says `evaluateExpression "5/0"` fails with DivisionByZero
and that DivisionByZero is raised exactly when the divisor operand of a `/`
is zero.  The code disagrees: the guard `x === 0` compares the *string*
token `"0"` against the *number* `0`, which is false under strict equality,
so `"5/0"` divides through and returns `Infinity`.  The check only fires
when the divisor is a computed number, as in `"5/(0+0)"`. -/
theorem C1_division_by_zero_check_misses_literal_zero :
    evaluateExpression "5/0" = .ok (.inf false) ∧
    evaluateExpression "5/(0+0)" = .error .divisionByZero :=
  ⟨by decide, by decide⟩

/-- C2 (counterexample): the claim says that after normalization `-` never
remains as a standalone operator token on well-formed input.  But the
well-formed `"5--3"` (which evaluates fine, to 8) normalizes to
`["5", "-", "-3"]`, in which `-` is a standalone operator token: the first
`-` is followed by another `-`, which matches neither normalization rule. -/
theorem C2_standalone_minus_survives :
    normalizedTokens "5--3" = .ok ["5", "-", "-3"] ∧
    "-" ∈ ["5", "-", "-3"] ∧
    evaluateExpression "5--3" = .ok (.fin 8) :=
  ⟨by decide, by decide, by decide⟩

/-- C2 (amended): after normalization, a `-` directly followed by a number
or `(` is folded away, but a standalone `-` operator token survives when
followed by another `-`; the evaluator's `-` branch is therefore reachable
on well-formed input, and computes second-popped minus first-popped, so such
inputs still evaluate correctly: `"5--3"` normalizes to `["5", "-", "-3"]`
and evaluates to 8 through the `-` branch. -/
theorem C2_minus_branch_reachable :
    normalizedTokens "5--3" = .ok ["5", "-", "-3"] ∧
    applyOp "-" (.str "-3") (.str "5") = .ok (.fin 8) ∧
    evaluateExpression "5--3" = .ok (.fin 8) :=
  ⟨by decide, by decide, by decide⟩

/-- C3: the claim says every valid balanced expression over the allowed
characters evaluates to a number.  The code disagrees on `"(2+3)-(4)"`: the
validator accepts it, but `fixNegativeNumbers` rewrites `- (` to `-1 * (`
without inserting a `+` when the preceding token is `)` (it only checks for
a preceding *number*, unlike the sibling number-folding branch which also
checks for `)`), leaving two adjacent operands; the final stack has two
values and evaluation throws InvalidExpression.  The unparenthesized
`"(2+3)-4"` works. -/
theorem C3_valid_expression_rejected :
    validateInput "(2+3)-(4)" = .ok () ∧
    evaluateExpression "(2+3)-(4)" = .error .invalidExpression ∧
    evaluateExpression "(2+3)-4" = .ok (.fin 1) ∧
    (∀ input : String, (∃ c ∈ stripSpaces input.toList, allowedChar c = false) →
      evaluateExpression input = .error .invalidExpression) := by
  refine ⟨by decide, by decide, by decide, ?_⟩
  rintro input ⟨c, hc, hfalse⟩
  refine eval_error_of_validate_error input _ ?_
  unfold validateInput
  by_cases h1 : parenScan input.toList 0 = true
  · rw [h1]
    have hall : (stripSpaces input.toList).all allowedChar = false := by
      rcases hb : (stripSpaces input.toList).all allowedChar with _ | _
      · rfl
      · have := List.all_eq_true.mp hb c hc
        rw [hfalse] at this
        exact absurd this (by simp)
    rw [hall]
    simp
  · rw [Bool.eq_false_iff.mpr h1]
    simp

/-- C3 witness: the disallowed-character half instantiated at `"1+x"`. -/
theorem C3_valid_expression_rejected_witness :
    evaluateExpression "1+x" = .error .invalidExpression :=
  C3_valid_expression_rejected.2.2.2 "1+x" (by decide)

/-- C4: unary and binary minus folding — the five spec examples hold:
`5-3 = 2`, `-5+3 = -2`, `5--3 = 8`, `-(2+3) = -5`, `5-(2+3) = 0`. -/
theorem C4_minus_folding_examples :
    evaluateExpression "5-3" = .ok (.fin 2) ∧
    evaluateExpression "-5+3" = .ok (.fin (-2)) ∧
    evaluateExpression "5--3" = .ok (.fin 8) ∧
    evaluateExpression "-(2+3)" = .ok (.fin (-5)) ∧
    evaluateExpression "5-(2+3)" = .ok (.fin 0) :=
  ⟨by decide, by decide, by decide, by decide, by decide⟩

/-- C5: the converter's operator step pops from the stack exactly while the
top's precedence is greater than or equal to the current token's
(left-associativity), and the three spec examples hold:
`2+3*4 = 14`, `(2+3)*4 = 20`, `10-3-2 = 5`. -/
theorem C5_precedence_ge_popping :
    (∀ (token : String) (stack : List String),
      popGE token [] stack =
        (stack.takeWhile (fun t => precedence t ≥ precedence token),
         stack.dropWhile (fun t => precedence t ≥ precedence token))) ∧
    evaluateExpression "2+3*4" = .ok (.fin 14) ∧
    evaluateExpression "(2+3)*4" = .ok (.fin 20) ∧
    evaluateExpression "10-3-2" = .ok (.fin 5) := by
  refine ⟨fun token stack => ?_, by decide, by decide, by decide⟩
  simpa using popGE_spec token stack []

/-- C6: implicit multiplication is inserted for `)(`, number-`(` and
`)`-number adjacencies: `2(3) = 6`, `(2)(3) = 6`, `(2)3 = 6`,
`(2)(3)(4) = 24`. -/
theorem C6_implicit_multiplication :
    evaluateExpression "2(3)" = .ok (.fin 6) ∧
    evaluateExpression "(2)(3)" = .ok (.fin 6) ∧
    evaluateExpression "(2)3" = .ok (.fin 6) ∧
    evaluateExpression "(2)(3)(4)" = .ok (.fin 24) :=
  ⟨by decide, by decide, by decide, by decide⟩

/-- C7: the validator fails (always with InvalidExpression) exactly when
parenthesis nesting goes negative on some prefix, or the final nesting count
is nonzero, or some character of the whitespace-stripped input is outside
the allowed set; and the three spec examples hold. -/
theorem C7_validator_contract :
    (∀ input : String,
      validateInput input = .ok () ∨ validateInput input = .error .invalidExpression) ∧
    (∀ input : String,
      validateInput input = .error .invalidExpression ↔ specRejects input) ∧
    evaluateExpression "(1+2)" = .ok (.fin 3) ∧
    evaluateExpression "(1+2" = .error .invalidExpression ∧
    evaluateExpression "1+2)" = .error .invalidExpression := by
  refine ⟨?_, ?_, by decide, by decide, by decide⟩
  · intro input
    unfold validateInput
    split
    · right; rfl
    · split
      · right; rfl
      · left; rfl
  intro input
  have hps := parenScan_iff input.toList 0 (le_refl 0)
  simp only [zero_add] at hps
  unfold specRejects
  by_cases h1 : parenScan input.toList 0 = true
  · by_cases h2 : (stripSpaces input.toList).all allowedChar = true
    · have hv : validateInput input = .ok () := by
        unfold validateInput; rw [h1, h2]; simp
      rw [hv]
      obtain ⟨hall, hzero⟩ := hps.mp h1
      constructor
      · intro hcontra; exact absurd hcontra (by simp)
      · rintro (⟨p, hp, hlt⟩ | hnz | ⟨ch, hc, hfalse⟩)
        · have := hall p hp; omega
        · exact absurd hzero hnz
        · have := List.all_eq_true.mp h2 ch hc
          rw [hfalse] at this
          exact absurd this (by simp)
    · have hv : validateInput input = .error .invalidExpression := by
        unfold validateInput
        rw [h1, Bool.eq_false_iff.mpr h2]
        simp
      rw [hv]
      refine iff_of_true rfl ?_
      right; right
      simp only [List.all_eq_true, not_forall] at h2
      obtain ⟨ch, hc, hfalse⟩ := h2
      exact ⟨ch, hc, by simpa using hfalse⟩
  · have hv : validateInput input = .error .invalidExpression := by
      unfold validateInput
      rw [Bool.eq_false_iff.mpr h1]
      simp
    rw [hv]
    refine iff_of_true rfl ?_
    have hnot : ¬((∀ p ∈ input.toList.inits, 0 ≤ parenTally p) ∧ parenTally input.toList = 0) :=
      fun hab => h1 (hps.mpr hab)
    rcases not_and_or.mp hnot with hA | hB
    · left
      simp only [not_forall] at hA
      obtain ⟨p, hp, hlt⟩ := hA
      exact ⟨p, hp, by omega⟩
    · right; left; exact hB

/-- C7 witness: the validator contract instantiated at `"1+2)"`. -/
theorem C7_validator_contract_witness :
    validateInput "1+2)" = .error .invalidExpression :=
  (C7_validator_contract.2.1 "1+2)").mpr (by decide)

/-- C9: every successful evaluation returns the rounding of the single raw
stack value — multiply by 10000, `Math.round`, divide by 10000 — and in
particular `evaluateExpression "1/3" = 0.3333`. -/
theorem C9_result_is_rounded :
    (∀ (input : String) (r : JSNum), evaluateExpression input = .ok r →
      ∃ v : Value, rawStack input = .ok [v] ∧ r = roundedSolution v) ∧
    evaluateExpression "1/3" = .ok (.fin (Q.norm 3333 10000)) := by
  refine ⟨?_, by decide⟩
  intro input r h
  unfold evaluateExpression at h
  split at h
  next e heq => exact absurd h (by simp)
  next stack heq =>
    split at h
    next hcond => exact absurd h (by simp)
    next hcond =>
      rw [Bool.not_eq_true, Bool.or_eq_false_iff] at hcond
      obtain ⟨hlen, -⟩ := hcond
      rw [bne_eq_false_iff_eq] at hlen
      obtain ⟨v, rfl⟩ := List.length_eq_one.mp hlen
      cases h
      exact ⟨v, heq, rfl⟩

/-- C9 witness: the rounding relation instantiated at `"1/3"`. -/
theorem C9_result_is_rounded_witness :
    ∃ v : Value, rawStack "1/3" = .ok [v] ∧
      JSNum.fin (Q.norm 3333 10000) = roundedSolution v :=
  C9_result_is_rounded.1 "1/3" (.fin (Q.norm 3333 10000)) (by decide)

/-- C10: whenever tokenization succeeds, concatenating the returned tokens
in order gives back exactly the whitespace-stripped input — the tokenizer
partitions the cleaned input, losing and adding no characters. -/
theorem C10_tokenization_partitions :
    ∀ (input : String) (ts : List String), getArrayOfTokens input = .ok ts →
      (ts.map String.toList).flatten = stripSpaces input.toList := by
  intro input ts h
  exact tokensAux_concat _ _ _ h

/-- C10 witness: the partition property instantiated at `" 1 + 23 "`. -/
theorem C10_tokenization_partitions_witness :
    getArrayOfTokens " 1 + 23 " = .ok ["1", "+", "23"] ∧
    (["1", "+", "23"].map String.toList).flatten = stripSpaces " 1 + 23 ".toList :=
  ⟨by decide, C10_tokenization_partitions " 1 + 23 " ["1", "+", "23"] (by decide)⟩

/-- C8: the tokenizer rejects a second decimal point inside a number token
and a token ending in a decimal point, and the three spec examples hold:
`1.5+2.25 = 3.75`, `1..5` and `1.+2` fail with InvalidExpression. -/
theorem C8_decimal_point_errors :
    (∀ (curr rest : List Char), curr.contains '.' = true →
      scanNumber curr ('.' :: rest) = .error .invalidExpression) ∧
    (∀ curr : List Char, curr.getLast? = some '.' →
      scanNumber curr [] = .error .invalidExpression) ∧
    (∀ (curr rest : List Char) (c : Char), isOperatorChar c = true →
      curr.getLast? = some '.' →
      scanNumber curr (c :: rest) = .error .invalidExpression) ∧
    evaluateExpression "1.5+2.25" = .ok (.fin (Q.norm 15 4)) ∧
    evaluateExpression "1..5" = .error .invalidExpression ∧
    evaluateExpression "1.+2" = .error .invalidExpression := by
  refine ⟨?_, ?_, ?_, by decide, by decide, by decide⟩
  · intro curr rest hdot
    have hdot1 : '.' ∈ curr := by simpa using hdot
    simp [scanNumber, hdot1, show isOperatorChar '.' = false from by decide]
  · intro curr hlast
    simp [scanNumber, hlast]
  · intro curr rest c hop hlast
    simp [scanNumber, hop, hlast]

/-- C8 witness: the double-decimal-point rejection instantiated at the
token scan state reached inside `"1..5"`. -/
theorem C8_decimal_point_errors_witness :
    List.contains ['1', '.'] '.' = true ∧
    scanNumber ['1', '.'] ('.' :: ['5']) = .error .invalidExpression :=
  ⟨by decide, C8_decimal_point_errors.1 ['1', '.'] ['5'] (by decide)⟩

end Calculator
